import Mathlib

/-!
Verification of the crypto_news pipeline (keyword filter, AI relevance
filter, impact scorer, dedup ledger, Telegram sender, orchestrator).

JavaScript strings are modelled as `List Char` (one entry per code point;
this differs from JS UTF-16 `length` only on astral-plane characters,
which never changes any comparison made below).  JavaScript numbers
reaching the modelled code are values parsed from JSON, hence finite;
`NaN` arises only through coercion and is modelled by `Option ℚ` with
`none` standing for NaN.
-/

namespace CryptoNews

/-- JS strings as lists of characters. -/
abbrev Str := List Char

/-- `text.toLowerCase()` (per-character lowering; the keyword lists and
feed text are ASCII, where this agrees with JS). -/
def lowerStr (s : Str) : Str := s.map Char.toLower

/-- `hay.includes(pat)`: contiguous-substring test, as in
`String.prototype.includes`. -/
def jsIncludes (hay pat : Str) : Bool :=
  match hay with
  | [] => pat.isEmpty
  | _ :: t => pat.isPrefixOf hay || jsIncludes t pat

/-- `message.split('\n')` : split into lines at every newline. -/
def splitNL : Str → List Str
  | [] => [[]]
  | c :: t =>
    match splitNL t with
    | [] => [[]]
    | h :: r => if c = '\n' then [] :: h :: r else (c :: h) :: r

/-- `lines.join('\n')` : the inverse of `splitNL`. -/
def joinNL : List Str → Str
  | [] => []
  | [l] => l
  | l :: ls => l ++ '\n' :: joinNL ls

theorem splitNL_ne_nil (s : Str) : splitNL s ≠ [] := by
  cases s with
  | nil => simp [splitNL]
  | cons c t =>
    simp only [splitNL]
    split
    · simp
    · split <;> simp

theorem joinNL_splitNL (s : Str) : joinNL (splitNL s) = s := by
  induction s with
  | nil => rfl
  | cons c t ih =>
    simp only [splitNL]
    cases h : splitNL t with
    | nil => exact absurd h (splitNL_ne_nil t)
    | cons hd r =>
      rw [h] at ih
      by_cases hc : c = '\n'
      · subst hc
        simp only [if_pos rfl]
        cases r with
        | nil => simpa [joinNL] using ih
        | cons r0 rs => simpa [joinNL] using ih
      · simp only [if_neg hc]
        cases r with
        | nil => simpa [joinNL] using ih
        | cons r0 rs => simpa [joinNL] using ih

/-- Correctness of the substring test: `jsIncludes hay pat` holds exactly
when `pat` occurs contiguously inside `hay`. -/
theorem jsIncludes_iff_infix (hay pat : Str) :
    jsIncludes hay pat = true ↔ pat <:+: hay := by
  induction hay with
  | nil =>
    simp only [jsIncludes, List.isEmpty_iff]
    constructor
    · rintro rfl; exact List.infix_refl _
    · intro h; exact List.eq_nil_of_infix_nil h
  | cons c t ih =>
    simp only [jsIncludes, Bool.or_eq_true, List.isPrefixOf_iff_prefix, ih,
      List.infix_cons_iff]

/-! ### JavaScript value semantics

Fields of an object obtained from `JSON.parse` are finite numbers,
strings, booleans, `null`, or missing (`undefined` on access); objects
and arrays never occur in the scalar fields read by this code base and
are omitted.  `JNum` is a JS number that may be `NaN`. -/

/-- A JS number; `none` is `NaN` (JSON itself cannot contain `NaN`, but
coercions produce it). -/
abbrev JNum := Option ℚ

/-- A scalar JSON field value as seen by the JS code. -/
inductive JVal where
  | num (q : ℚ)
  | str (s : Str)
  | boolv (b : Bool)
  | nullv
  | absent
deriving DecidableEq

/-- JS truthiness of a `JVal` (finite `0`, `""`, `false`, `null`,
`undefined` are falsy). -/
def truthy : JVal → Bool
  | .num q => decide (q ≠ 0)
  | .str s => decide (s ≠ [])
  | .boolv b => b
  | .nullv => false
  | .absent => false

/-- ASCII whitespace for `ToNumber` string trimming. -/
def isWS (c : Char) : Bool := c = ' ' || c = '\t' || c = '\n' || c = '\r'

/-- `10*acc + digit` accumulation for a digit string. -/
def natOfDigits (ds : Str) : ℕ :=
  ds.foldl (fun acc c => 10 * acc + (c.toNat - '0'.toNat)) 0

/-- Parse an unsigned decimal literal (`digits`, `digits.digits`,
`.digits`, `digits.`); anything else is `NaN`.  Hex and exponent forms
of JS `ToNumber` never occur in the data considered here and are out of
the modelled scope. -/
def parseUnsigned (t : Str) : Option ℚ :=
  let intPart := t.takeWhile Char.isDigit
  let rest := t.dropWhile Char.isDigit
  match rest with
  | [] => if intPart = [] then none else some (natOfDigits intPart : ℚ)
  | '.' :: frac =>
    if frac.all Char.isDigit && (!intPart.isEmpty || !frac.isEmpty) then
      some ((natOfDigits intPart : ℚ) + (natOfDigits frac : ℚ) / (10 : ℚ) ^ frac.length)
    else none
  | _ => none

/-- JS `ToNumber` on a string: trim whitespace, empty trims to `0`,
otherwise an optionally signed decimal literal, else `NaN`. -/
def strToNumber (s : Str) : JNum :=
  let t := ((s.dropWhile isWS).reverse.dropWhile isWS).reverse
  match t with
  | [] => some 0
  | '-' :: u => (parseUnsigned u).map Neg.neg
  | '+' :: u => parseUnsigned u
  | _ => parseUnsigned t

/-- JS `ToNumber` of a `JVal`. -/
def toNumber : JVal → JNum
  | .num q => some q
  | .str s => strToNumber s
  | .boolv b => some (if b then 1 else 0)
  | .nullv => some 0
  | .absent => none

/-- JS `v || d` for a numeric default `d`: keeps `v` when truthy. -/
def jsOr (v : JVal) (d : ℚ) : JVal := if truthy v then v else .num d

/-- JS `v || d` for a `JVal` default. -/
def jsOrVal (v d : JVal) : JVal := if truthy v then v else d

/-- `Math.min` (NaN-propagating). -/
def jsMin (a b : JNum) : JNum :=
  match a, b with
  | some x, some y => some (min x y)
  | _, _ => none

/-- `Math.max` (NaN-propagating). -/
def jsMax (a b : JNum) : JNum :=
  match a, b with
  | some x, some y => some (max x y)
  | _, _ => none

/-! ### Data model -/

/-- `keywordMatches` record attached by the keyword filter; the source
field named after the third category is `macroCat` here because that
word is reserved in Lean. -/
structure KeywordMatches where
  crypto : Bool
  fed : Bool
  macroCat : Bool
  categoryCount : ℕ
deriving DecidableEq

/-- A validated impact object as produced by `scoreImpact`
(`src/processors/impactScorer.js`). -/
structure ValidatedImpact where
  policyStrength : JNum
  expectationGap : JNum
  timeUrgency : JNum
  cryptoRelevance : JNum
  totalScore : JNum
  level : JVal
  direction : JVal
  reasoning : JVal
deriving DecidableEq

/-- A news item, with the optional fields the pipeline stages attach in
place (`keywordMatches`, `aiScore`/`aiReason`, `impact`). -/
structure NewsItem where
  title : Str
  description : Str
  url : Str
  keywordMatches : Option KeywordMatches := none
  aiScore : Option JVal := none
  aiReason : Option JVal := none
  impact : Option ValidatedImpact := none
deriving DecidableEq

/-! ### Keyword prefilter (`src/filters/keywordFilter.js`) -/

/-- `KEYWORDS.crypto`. -/
def cryptoKeywords : List Str :=
  ["crypto", "cryptocurrency", "bitcoin", "btc", "ethereum", "eth",
   "blockchain", "digital currency", "stablecoin", "defi", "nft",
   "altcoin", "token", "wallet", "exchange", "mining", "hash",
   "satoshi", "hodl", "fiat", "crypto market", "digital asset"].map String.toList

/-- `KEYWORDS.fed`. -/
def fedKeywords : List Str :=
  ["federal reserve", "fed", "fomc", "interest rate", "monetary policy",
   "powell", "inflation", "deflation", "quantitative easing", "qe",
   "tapering", "rate hike", "rate cut", "federal funds rate",
   "central bank", "jerome powell", "fed chair"].map String.toList

/-- `KEYWORDS.macro`. -/
def macroKeywords : List Str :=
  ["gdp", "unemployment", "cpi", "ppi", "treasury", "bond yield",
   "economic growth", "recession", "stagflation", "fiscal policy",
   "government spending", "debt ceiling", "trade deficit", "surplus",
   "employment", "job market", "consumer price", "producer price",
   "economic indicator", "macroeconomic"].map String.toList

/-- `containsKeywords(text, keywords)`: false on empty text, else any
keyword (lower-cased) is a substring of the lower-cased text. -/
def containsKeywords (text : Str) (keywords : List Str) : Bool :=
  if text = [] then false
  else keywords.any (fun k => jsIncludes (lowerStr text) (lowerStr k))

/-- `countCategoryMatches(title, description)`. -/
def countCategoryMatches (title description : Str) : KeywordMatches :=
  let combinedText := title ++ ' ' :: description
  let c := containsKeywords combinedText cryptoKeywords
  let f := containsKeywords combinedText fedKeywords
  let m := containsKeywords combinedText macroKeywords
  { crypto := c, fed := f, macroCat := m,
    categoryCount := (cond c 1 0) + (cond f 1 0) + (cond m 1 0) }

/-- `filterByKeywords(news)`: keep items matching at least 2 of the 3
categories, attaching the match record. -/
def filterByKeywords (news : List NewsItem) : List NewsItem :=
  news.filterMap (fun item =>
    if 2 ≤ (countCategoryMatches item.title item.description).categoryCount then
      some { item with
        keywordMatches := some (countCategoryMatches item.title item.description) }
    else none)

/-! ### Impact scorer (`src/processors/impactScorer.js`) -/

/-- The JSON object parsed out of the oracle's impact response, fields
arbitrary or missing. -/
structure OracleImpact where
  policyStrength : JVal
  expectationGap : JVal
  timeUrgency : JVal
  cryptoRelevance : JVal
  totalScore : JVal
  level : JVal
  direction : JVal
  reasoning : JVal
deriving DecidableEq

/-- `Math.max(0, Math.min(25, v || 0))`. -/
def clampSub (v : JVal) : JNum :=
  jsMax (some 0) (jsMin (some 25) (toNumber (jsOr v 0)))

/-- `Math.max(0, Math.min(100, v || 0))`. -/
def clampTotal (v : JVal) : JNum :=
  jsMax (some 0) (jsMin (some 100) (toNumber (jsOr v 0)))

/-- The default result object installed when JSON extraction or parsing
fails. -/
def defaultImpactResult : OracleImpact :=
  { policyStrength := .num 10, expectationGap := .num 10,
    timeUrgency := .num 10, cryptoRelevance := .num 10,
    totalScore := .num 40, level := .str "中等影响".toList,
    direction := .str "中性".toList,
    reasoning := .str "AI 评分失败，使用默认值".toList }

/-- The `validated` object built from a parsed (or defaulted) result. -/
def validateImpact (r : OracleImpact) : ValidatedImpact :=
  { policyStrength := clampSub r.policyStrength,
    expectationGap := clampSub r.expectationGap,
    timeUrgency := clampSub r.timeUrgency,
    cryptoRelevance := clampSub r.cryptoRelevance,
    totalScore := clampTotal r.totalScore,
    level := jsOrVal r.level (.str "中等影响".toList),
    direction := jsOrVal r.direction (.str "中性".toList),
    reasoning := jsOrVal r.reasoning (.str "无理由说明".toList) }

/-- Outcome of one oracle call in `scoreImpact`: the chat call threw
(network/auth/config error), the response held no parsable JSON, or a
JSON object was parsed. -/
inductive ScoreOutcome where
  | transportError (msg : Str)
  | parseFailure
  | parsed (r : OracleImpact)
deriving DecidableEq

/-- `scoreImpact(newsItem)` as a function of the oracle-call outcome.
The transport-error branch (outer `catch`) returns its default object
directly; the parse-failure branch substitutes the default result and
still runs validation. -/
def scoreImpact : ScoreOutcome → ValidatedImpact
  | .transportError msg =>
    { policyStrength := some 10, expectationGap := some 10,
      timeUrgency := some 10, cryptoRelevance := some 10,
      totalScore := some 40, level := .str "中等影响".toList,
      direction := .str "中性".toList,
      reasoning := .str ("评分出错: ".toList ++ msg) }
  | .parseFailure => validateImpact defaultImpactResult
  | .parsed r => validateImpact r

/-- `(item.impact?.totalScore || 0)` — the sort key. -/
def impactKey (item : NewsItem) : ℚ :=
  match item.impact with
  | none => 0
  | some imp =>
    match imp.totalScore with
    | some q => q
    | none => 0

/-- `item.impact = await scoreImpact(item)` for one item. -/
def attachImpact (oracle : NewsItem → ScoreOutcome) (item : NewsItem) : NewsItem :=
  { item with impact := some (scoreImpact (oracle item)) }

/-- Descending order on the sort key, the preorder induced by the
comparator `(a, b) => (b.impact?.totalScore || 0) - (a.impact?.totalScore || 0)`. -/
def impactGE (a b : NewsItem) : Prop := impactKey b ≤ impactKey a

instance : DecidableRel impactGE :=
  fun a b => inferInstanceAs (Decidable (impactKey b ≤ impactKey a))

instance : IsTotal NewsItem impactGE :=
  ⟨fun a b => le_total (impactKey b) (impactKey a)⟩

instance : IsTrans NewsItem impactGE :=
  ⟨fun _ _ _ hab hbc => le_trans hbc hab⟩

/-- `scoreAllNewsImpact(news)`: score every item, then
`news.sort(comparator)`.  JS `Array.prototype.sort` is a stable sort;
the output of any stable sort is uniquely determined by the comparator
preorder, so it is modelled by insertion sort (which Mathlib's
`insertionSort` implements stably). -/
def scoreAllNewsImpact (oracle : NewsItem → ScoreOutcome)
    (news : List NewsItem) : List NewsItem :=
  List.insertionSort impactGE (news.map (attachImpact oracle))

/-! ### AI relevance filter (`src/filters/aiFilter.js`) -/

/-- The JSON object parsed from the relevance oracle's response. -/
structure RelResult where
  score : JVal
  reason : JVal
  relevant : JVal
deriving DecidableEq

/-- Outcome of one oracle call in `judgeRelevance`: the call threw, no
JSON could be parsed (with the regex-extracted numeric `score`, if
any), or a JSON object was parsed. -/
inductive RelOutcome where
  | transportError (msg : Str)
  | parseFailure (extracted : Option ℚ)
  | parsed (r : RelResult)
deriving DecidableEq

/-- The verdict object returned by `judgeRelevance`. -/
structure Verdict where
  score : JVal
  reason : JVal
  relevant : JVal
deriving DecidableEq

/-- JS `v >= q` (ToNumber on `v`; false when NaN). -/
def jsGEnum (v : JVal) (q : ℚ) : Bool :=
  match toNumber v with
  | some x => decide (q ≤ x)
  | none => false

/-- The final `return` of `judgeRelevance`: `score: result.score || 0`,
`reason: result.reason || '无理由'`,
`relevant: result.relevant !== undefined ? result.relevant : (result.score >= 6)`. -/
def coerceVerdict (r : RelResult) : Verdict :=
  { score := jsOr r.score 0,
    reason := jsOrVal r.reason (.str "无理由".toList),
    relevant := if r.relevant = .absent then .boolv (jsGEnum r.score 6) else r.relevant }

/-- The result object built when JSON parsing fails: regex-extracted
score or `5`, `relevant = score >= 6`. -/
def regexFallback (extracted : Option ℚ) : RelResult :=
  let s : ℚ := extracted.getD 5
  { score := .num s,
    reason := .str "AI 返回格式异常，使用默认评分".toList,
    relevant := .boolv (decide (6 ≤ s)) }

/-- The verdict produced by the outer `catch` of `judgeRelevance`. -/
def fallbackVerdict (msg : Str) : Verdict :=
  { score := .num 5,
    reason := .str ("AI 判断出错: ".toList ++ msg),
    relevant := .boolv true }

/-- The `try` body of `judgeRelevance`: throws when the API key is
missing (`initOpenAI`) or the chat call fails; otherwise returns the
coerced verdict. -/
def judgeBody (hasKey : Bool) (o : RelOutcome) : Except Str Verdict :=
  if hasKey = false then .error "OPENAI_API_KEY 环境变量未设置".toList
  else
    match o with
    | .transportError msg => .error msg
    | .parsed r => .ok (coerceVerdict r)
    | .parseFailure ext => .ok (coerceVerdict (regexFallback ext))

/-- `judgeRelevance(newsItem)`: the `try` body with its `catch`. -/
def judgeRelevance (hasKey : Bool) (o : RelOutcome) : Verdict :=
  match judgeBody hasKey o with
  | .ok v => v
  | .error e => fallbackVerdict e

/-- `judgeRelevance` seen as a promise: `.error` would mean the promise
rejects past the `catch`. -/
def judgeRelevanceE (hasKey : Bool) (o : RelOutcome) : Except Str Verdict :=
  match judgeBody hasKey o with
  | .ok v => .ok v
  | .error e => .ok (fallbackVerdict e)

/-- `item.aiScore = judgment.score; item.aiReason = judgment.reason`. -/
def annotateAI (item : NewsItem) (v : Verdict) : NewsItem :=
  { item with aiScore := some v.score, aiReason := some v.reason }

/-- The settled result of one mapped promise of a batch
(`{ item, judgment }` on fulfillment). -/
def settleItem (hasKey : Bool) (oracle : NewsItem → RelOutcome)
    (item : NewsItem) : Except Str (NewsItem × Verdict) :=
  (judgeRelevanceE hasKey (oracle item)).map (fun v => (item, v))

/-- `result.status === 'fulfilled'`. -/
def isFulfilled : Except Str (NewsItem × Verdict) → Bool
  | .ok _ => true
  | .error _ => false

/-- Placeholder for the `undefined` produced by an out-of-range
positional lookup in the rejected branch. -/
def phantomItem : NewsItem := { title := [], description := [], url := [] }

/-- The `for (const result of results)` loop over a batch's settled
results: fulfilled results are annotated and kept when
`judgment.relevant` is truthy; a rejected result pushes
`batch[results.indexOf(result)]` (positional recovery). -/
def processSettled (batch : List NewsItem) :
    ℕ → List (Except Str (NewsItem × Verdict)) → List NewsItem
  | _, [] => []
  | idx, .ok (item, v) :: rest =>
    (if truthy v.relevant then [annotateAI item v] else []) ++
      processSettled batch (idx + 1) rest
  | idx, .error _ :: rest =>
    batch.getD idx phantomItem :: processSettled batch (idx + 1) rest

/-- `news.slice(i, i + 5)` batching of the outer loop. -/
def chunksOf5 {α : Type} : List α → List (List α)
  | [] => []
  | x :: xs => (x :: xs.take 4) :: chunksOf5 (xs.drop 4)
termination_by l => l.length
decreasing_by simp [List.length_drop]; omega

/-- `filterByAI(news)`: batches of 5, `Promise.allSettled`, per-result
handling, batches concatenated in order. -/
def filterByAI (hasKey : Bool) (oracle : NewsItem → RelOutcome)
    (news : List NewsItem) : List NewsItem :=
  (chunksOf5 news).flatMap (fun batch =>
    processSettled batch 0 (batch.map (settleItem hasKey oracle)))

/-- One item's contribution on the (always-taken) fulfilled path. -/
def aiStep (hasKey : Bool) (oracle : NewsItem → RelOutcome)
    (item : NewsItem) : Option NewsItem :=
  let v := judgeRelevance hasKey (oracle item)
  if truthy v.relevant then some (annotateAI item v) else none

/-! ### Deduplication ledger (`src/utils/deduplicator.js`)

`sentAt` is stored as an ISO string and read back through
`new Date(...).getTime()`; it is modelled directly as the epoch-millis
integer that round trip yields. -/

/-- A `{url, title, sentAt}` record of the ledger. -/
structure DedupRecord where
  url : Str
  title : Str
  sentAt : ℤ
deriving DecidableEq

/-- `MAX_AGE_DAYS * 24 * 60 * 60 * 1000`. -/
def maxAgeMs : ℤ := 30 * 24 * 60 * 60 * 1000

/-- The retention test `(now - recordTime) < maxAge`. -/
def withinWindow (now : ℤ) (r : DedupRecord) : Bool :=
  decide (now - r.sentAt < maxAgeMs)

/-- `loadSentNews()`: a missing or corrupt backing file (`none`) yields
the empty ledger; otherwise expired records are dropped and the URL set
is collected.  Returns `(urls, records)`. -/
def loadSentNews (file : Option (List DedupRecord)) (now : ℤ) :
    List Str × List DedupRecord :=
  match file with
  | none => ([], [])
  | some records =>
    let validRecords := records.filter (withinWindow now)
    (validRecords.map (·.url), validRecords)

/-- `filterUnsentNews(news, sentUrls)`. -/
def filterUnsentNews (news : List NewsItem) (sentUrls : List Str) :
    List NewsItem :=
  news.filter (fun item => !sentUrls.contains item.url)

/-- `saveSentNews(news, existingRecords)`: append the new
`{url, title, sentAt: now}` records, re-filter the union by age, and
persist; returns the persisted record list. -/
def saveSentNews (news : List NewsItem) (existingRecords : List DedupRecord)
    (now : ℤ) : List DedupRecord :=
  let newRecords := news.map (fun item =>
    { url := item.url, title := item.title, sentAt := now : DedupRecord })
  let allRecords := existingRecords ++ newRecords
  allRecords.filter (withinWindow now)

/-! ### Telegram sender (`src/telegram/sender.js`) -/

/-- `TELEGRAM_MAX_MESSAGE_LENGTH`. -/
def TG_MAX : ℕ := 4096

/-- The `while (remaining.length > maxLength)` hard-split loop: the list
of `maxLength`-sized pieces pushed, and the final remainder.  The JS
loop diverges when `maxLength = 0`; the model needs `0 < maxLen` to
recurse, and every claim about the chunker assumes `maxLen ≥ 1`. -/
def splitHard (maxLen : ℕ) (line : Str) : List Str × Str :=
  if _h : 0 < maxLen ∧ maxLen < line.length then
    let rest := splitHard maxLen (line.drop maxLen)
    (line.take maxLen :: rest.1, rest.2)
  else ([], line)
termination_by line.length
decreasing_by simp only [List.length_drop]; omega

/-- The `for (const line of lines)` loop of `splitMessage`, carrying
`currentMessage`. -/
def splitLoop (maxLen : ℕ) : Str → List Str → List Str
  | cur, [] => if cur = [] then [] else [cur]
  | cur, line :: rest =>
    if cur.length + line.length + 1 ≤ maxLen then
      splitLoop maxLen (if cur = [] then line else cur ++ '\n' :: line) rest
    else
      (if cur = [] then [] else [cur]) ++
        (if maxLen < line.length then
          (splitHard maxLen line).1 ++
            splitLoop maxLen (splitHard maxLen line).2 rest
        else splitLoop maxLen line rest)

/-- `splitMessage(message, maxLength)`. -/
def splitMessage (message : Str) (maxLen : ℕ) : List Str :=
  if message.length ≤ maxLen then [message]
  else splitLoop maxLen [] (splitNL message)

/-- The divider `'\n\n' + '─'.repeat(30) + '\n\n'` between combined
summaries. -/
def summarySeparator : Str :=
  '\n' :: '\n' :: List.replicate 30 '─' ++ ['\n', '\n']

/-- `summaries.join(separator)`. -/
def joinWithSeparator : List Str → Str
  | [] => []
  | [s] => s
  | s :: rest => s ++ summarySeparator ++ joinWithSeparator rest

/-- The `📊 今日新闻 (i/N)\n\n` header prepended in the separate-send
branch (1-based `i`). -/
def sendHeader (i n : ℕ) : Str :=
  "📊 今日新闻 (".toList ++ (toString i).toList ++ '/' ::
    (toString n).toList ++ ')' :: '\n' :: '\n' :: []

/-- Sequential chunk delivery: `sendMessageWithRetry` per chunk, the
first chunk that still fails after retries throws.  `ok m` tells
whether delivery of message `m` eventually succeeds. -/
def sendChunks (ok : Str → Bool) : List Str → Except Unit Unit
  | [] => .ok ()
  | m :: rest => if ok m then sendChunks ok rest else .error ()

/-- Whether one summary of the separate-send branch goes through: its
header-prefixed text is chunked and all chunks delivered; a thrown
error is caught per summary. -/
def sendSummaryOk (ok : Str → Bool) (i n : ℕ) (s : Str) : Bool :=
  match sendChunks ok (splitMessage (sendHeader (i + 1) n ++ s) TG_MAX) with
  | .ok _ => true
  | .error _ => false

/-- `sendNewsSummaries(summaries)`: one summary or a short-enough
combined text is sent directly (a failure propagates); otherwise each
summary is sent separately with an `i/N` header and per-summary errors
are swallowed.  Returns the success count. -/
def sendNewsSummaries (ok : Str → Bool) : List Str → Except Unit ℕ
  | [] => .ok 0
  | [s] => (sendChunks ok (splitMessage s TG_MAX)).map (fun _ => 1)
  | s1 :: s2 :: rest =>
    let ss := s1 :: s2 :: rest
    let combined := joinWithSeparator ss
    if combined.length ≤ TG_MAX then
      (sendChunks ok (splitMessage combined TG_MAX)).map (fun _ => ss.length)
    else
      .ok ((ss.enum.countP (fun p => sendSummaryOk ok p.1 ss.length p.2)))

/-- Steps 7-8 of `main` (`src/index.js`): deliver the summaries, then —
unless `sendNewsSummaries` threw — `saveSentNews(unsentNews,
existingRecords)` with ALL unsent items.  `none` means the run aborted
before the ledger write. -/
def mainCommitAfterSend (ok : Str → Bool) (unsentNews : List NewsItem)
    (summaries : List Str) (existingRecords : List DedupRecord)
    (now : ℤ) : Option (List DedupRecord) :=
  match sendNewsSummaries ok summaries with
  | .error _ => none
  | .ok _ => some (saveSentNews unsentNews existingRecords now)

/-! ## Theorems -/

/-- Category match, spelled out: some keyword of the list occurs
(lower-cased) inside the lower-cased text. -/
def matchesCategory (text : Str) (keywords : List Str) : Prop :=
  ∃ k, k ∈ keywords ∧ lowerStr k <:+: lowerStr text

theorem containsKeywords_iff (text : Str) (keywords : List Str) :
    containsKeywords text keywords = true ↔
      text ≠ [] ∧ matchesCategory text keywords := by
  rw [containsKeywords]
  by_cases h : text = []
  · simp [h]
  · simp [h, List.any_eq_true, matchesCategory, jsIncludes_iff_infix]

/-- C6: `filterByKeywords` retains an item iff at least 2 of the 3
keyword categories (crypto, fed, macro) match the lower-cased
concatenation of title and description by case-insensitive substring
test (any keyword of a category triggers the category), and every
retained item carries its per-category boolean match record. -/
theorem filterByKeywords_iff (news : List NewsItem) (x : NewsItem)
    (text : Str) (keywords : List Str) (t d : Str) :
    (x ∈ filterByKeywords news ↔
      ∃ item, item ∈ news ∧
        2 ≤ (countCategoryMatches item.title item.description).categoryCount ∧
        x = { item with keywordMatches := some (countCategoryMatches item.title item.description) }) ∧
    (containsKeywords text keywords = true ↔
      text ≠ [] ∧ matchesCategory text keywords) ∧
    (2 ≤ (countCategoryMatches t d).categoryCount ↔
      (matchesCategory (t ++ ' ' :: d) cryptoKeywords ∧
        matchesCategory (t ++ ' ' :: d) fedKeywords) ∨
      (matchesCategory (t ++ ' ' :: d) cryptoKeywords ∧
        matchesCategory (t ++ ' ' :: d) macroKeywords) ∨
      (matchesCategory (t ++ ' ' :: d) fedKeywords ∧
        matchesCategory (t ++ ' ' :: d) macroKeywords)) := by
  refine ⟨?_, containsKeywords_iff text keywords, ?_⟩
  · rw [filterByKeywords, List.mem_filterMap]
    constructor
    · rintro ⟨item, hmem, hf⟩
      by_cases hc : 2 ≤ (countCategoryMatches item.title item.description).categoryCount
      · rw [if_pos hc] at hf
        exact ⟨item, hmem, hc, (Option.some_injective _ hf).symm⟩
      · rw [if_neg hc] at hf
        exact absurd hf (Option.noConfusion)
    · rintro ⟨item, hmem, hc, rfl⟩
      exact ⟨item, hmem, by rw [if_pos hc]⟩
  · have hne : (t ++ ' ' :: d) ≠ [] := by
      cases t <;> simp
    have hiff : ∀ kws, containsKeywords (t ++ ' ' :: d) kws = true ↔
        matchesCategory (t ++ ' ' :: d) kws := by
      intro kws
      rw [containsKeywords_iff]
      simp [hne]
    have hiff2 : ∀ kws, containsKeywords (t ++ ' ' :: d) kws = false ↔
        ¬ matchesCategory (t ++ ' ' :: d) kws := by
      intro kws
      rw [Bool.eq_false_iff, ne_eq, hiff kws]
    rw [countCategoryMatches]
    rcases hC : containsKeywords (t ++ ' ' :: d) cryptoKeywords <;>
      rcases hF : containsKeywords (t ++ ' ' :: d) fedKeywords <;>
      rcases hM : containsKeywords (t ++ ' ' :: d) macroKeywords <;>
      simp_all [hiff, hiff2]

/-- C7: on a parse failure `scoreImpact` returns all sub-scores 10,
total 40, the medium level and neutral direction; on a transport
failure it returns the identical default scores with the reasoning
recording the failure cause. -/
theorem scoreImpact_defaults (msg : Str) :
    scoreImpact .parseFailure =
      { policyStrength := some 10, expectationGap := some 10,
        timeUrgency := some 10, cryptoRelevance := some 10,
        totalScore := some 40, level := .str "中等影响".toList,
        direction := .str "中性".toList,
        reasoning := .str "AI 评分失败，使用默认值".toList } ∧
    scoreImpact (.transportError msg) =
      { policyStrength := some 10, expectationGap := some 10,
        timeUrgency := some 10, cryptoRelevance := some 10,
        totalScore := some 40, level := .str "中等影响".toList,
        direction := .str "中性".toList,
        reasoning := .str ("评分出错: ".toList ++ msg) } :=
  ⟨by decide, rfl⟩

theorem splitHard_spec (maxLen : ℕ) (hm : 0 < maxLen) : ∀ line : Str,
    (∀ c ∈ (splitHard maxLen line).1, c.length = maxLen) ∧
    (splitHard maxLen line).2.length ≤ maxLen := by
  have key : ∀ (n : ℕ) (line : Str), line.length = n →
      (∀ c ∈ (splitHard maxLen line).1, c.length = maxLen) ∧
      (splitHard maxLen line).2.length ≤ maxLen := by
    intro n
    induction n using Nat.strong_induction_on with
    | _ n ih =>
      intro line hn
      rw [splitHard]
      by_cases h : 0 < maxLen ∧ maxLen < line.length
      · simp only [dif_pos h]
        have hdrop : (line.drop maxLen).length < n := by
          simp only [List.length_drop]; omega
        have hrec := ih _ hdrop (line.drop maxLen) rfl
        refine ⟨?_, hrec.2⟩
        intro c hc
        rcases List.mem_cons.mp hc with rfl | hc
        · simp only [List.length_take]; omega
        · exact hrec.1 c hc
      · simp only [dif_neg h]
        exact ⟨by simp, by omega⟩
  intro line
  exact key line.length line rfl

theorem splitLoop_spec (maxLen : ℕ) (hm : 1 ≤ maxLen) : ∀ (lines : List Str)
    (cur : Str), cur.length ≤ maxLen →
    ∀ c ∈ splitLoop maxLen cur lines, c ≠ [] ∧ c.length ≤ maxLen := by
  intro lines
  induction lines with
  | nil =>
    intro cur hcur c hc
    rw [splitLoop] at hc
    by_cases h : cur = []
    · rw [if_pos h] at hc; cases hc
    · rw [if_neg h] at hc
      rcases List.mem_singleton.mp hc with rfl
      exact ⟨h, hcur⟩
  | cons line rest ih =>
    intro cur hcur c hc
    rw [splitLoop] at hc
    by_cases hfit : cur.length + line.length + 1 ≤ maxLen
    · rw [if_pos hfit] at hc
      refine ih _ ?_ c hc
      by_cases hnil : cur = []
      · simp [hnil]; omega
      · simp [hnil]; omega
    · rw [if_neg hfit] at hc
      rcases List.mem_append.mp hc with hpush | hrest
      · by_cases hnil : cur = []
        · rw [if_pos hnil] at hpush; cases hpush
        · rw [if_neg hnil] at hpush
          rcases List.mem_singleton.mp hpush with rfl
          exact ⟨hnil, hcur⟩
      · by_cases hlong : maxLen < line.length
        · rw [if_pos hlong] at hrest
          rcases List.mem_append.mp hrest with hhard | hloop
          · have hs := (splitHard_spec maxLen hm line).1 c hhard
            constructor
            · intro hcnil
              rw [hcnil] at hs
              simp at hs
              omega
            · omega
          · exact ih _ (splitHard_spec maxLen hm line).2 c hloop
        · rw [if_neg hlong] at hrest
          exact ih _ (by omega) c hrest

/-- C2: every chunk `splitMessage` returns has length at most `maxLen`
(for any `maxLen ≥ 1`), and when the text is longer than `maxLen` no
returned chunk is empty. -/
theorem splitMessage_chunk_bounds (message : Str) (maxLen : ℕ)
    (hm : 1 ≤ maxLen) :
    (∀ c ∈ splitMessage message maxLen, c.length ≤ maxLen) ∧
    (maxLen < message.length →
      ∀ c ∈ splitMessage message maxLen, c ≠ []) := by
  rw [splitMessage]
  by_cases h : message.length ≤ maxLen
  · rw [if_pos h]
    exact ⟨fun c hc => by rcases List.mem_singleton.mp hc with rfl; exact h,
      fun hlong => absurd h (by omega)⟩
  · rw [if_neg h]
    exact ⟨fun c hc => (splitLoop_spec maxLen hm _ [] (by simp) c hc).2,
      fun _ c hc => (splitLoop_spec maxLen hm _ [] (by simp) c hc).1⟩

/-- C2 witness: the bounds at `maxLen = 3` on a 5-character text. -/
theorem splitMessage_chunk_bounds_witness :
    1 ≤ 3 ∧
    ((∀ c ∈ splitMessage "ab\ncd".toList 3, c.length ≤ 3) ∧
      (3 < "ab\ncd".toList.length →
        ∀ c ∈ splitMessage "ab\ncd".toList 3, c ≠ [])) :=
  ⟨by decide, splitMessage_chunk_bounds "ab\ncd".toList 3 (by decide)⟩

theorem joinNL_cons_of_ne (l : Str) (ls : List Str) (h : ls ≠ []) :
    joinNL (l :: ls) = l ++ '\n' :: joinNL ls := by
  cases ls with
  | nil => exact absurd rfl h
  | cons a t => rfl

theorem joinNL_glue (a b : Str) (rest : List Str) :
    joinNL ((a ++ '\n' :: b) :: rest) = a ++ '\n' :: joinNL (b :: rest) := by
  cases rest with
  | nil => rfl
  | cons r rs =>
    rw [joinNL_cons_of_ne (a ++ '\n' :: b) (r :: rs) (by simp),
      joinNL_cons_of_ne b (r :: rs) (by simp)]
    simp

theorem splitLoop_ne_nil (maxLen : ℕ) : ∀ (lines : List Str) (cur : Str),
    cur ≠ [] → splitLoop maxLen cur lines ≠ [] := by
  intro lines
  induction lines with
  | nil =>
    intro cur hcur
    rw [splitLoop, if_neg hcur]
    simp
  | cons line rest ih =>
    intro cur hcur
    rw [splitLoop]
    by_cases hfit : cur.length + line.length + 1 ≤ maxLen
    · rw [if_pos hfit, if_neg hcur]
      exact ih _ (by simp)
    · rw [if_neg hfit, if_neg hcur]
      simp

theorem splitLoop_join (maxLen : ℕ) : ∀ (lines : List Str) (cur : Str),
    cur ≠ [] → (∀ l ∈ lines, l ≠ [] ∧ l.length ≤ maxLen) →
    joinNL (splitLoop maxLen cur lines) = joinNL (cur :: lines) := by
  intro lines
  induction lines with
  | nil =>
    intro cur hcur _
    rw [splitLoop, if_neg hcur]
  | cons line rest ih =>
    intro cur hcur hlines
    have hline := hlines line (List.mem_cons_self _ _)
    have hrest : ∀ l ∈ rest, l ≠ [] ∧ l.length ≤ maxLen :=
      fun l hl => hlines l (List.mem_cons_of_mem _ hl)
    rw [splitLoop]
    by_cases hfit : cur.length + line.length + 1 ≤ maxLen
    · rw [if_pos hfit, if_neg hcur]
      rw [ih _ (by simp) hrest, joinNL_glue,
        joinNL_cons_of_ne cur (line :: rest) (by simp)]
    · rw [if_neg hfit, if_neg hcur, if_neg (by omega)]
      rw [List.singleton_append,
        joinNL_cons_of_ne cur _ (splitLoop_ne_nil maxLen rest line hline.1),
        ih line hline.1 hrest,
        joinNL_cons_of_ne cur (line :: rest) (by simp)]

theorem splitLoop_start (maxLen : ℕ) (l0 : Str) (ls : List Str)
    (h0 : l0.length ≤ maxLen) :
    splitLoop maxLen [] (l0 :: ls) = splitLoop maxLen l0 ls := by
  rw [splitLoop]
  by_cases hfit : ([] : Str).length + l0.length + 1 ≤ maxLen
  · rw [if_pos hfit, if_pos rfl]
  · rw [if_neg hfit, if_pos rfl, if_neg (by omega : ¬ maxLen < l0.length),
      List.nil_append]

/-- C9 (amended): a text that fits within `maxLen` is returned
unchanged as a single chunk; a longer text in which no line is empty
and no line exceeds `maxLen` (so no hard split is forced) is
reconstructed exactly by joining the chunks with a newline.  (Empty
lines falling on a chunk boundary are dropped by the code, so the
reconstruction clause needs the no-empty-line hypothesis; see the
counterexample.) -/
theorem splitMessage_reconstruction (message : Str) (maxLen : ℕ) :
    (message.length ≤ maxLen → splitMessage message maxLen = [message]) ∧
    (maxLen < message.length →
      (∀ l ∈ splitNL message, l ≠ [] ∧ l.length ≤ maxLen) →
      joinNL (splitMessage message maxLen) = message) := by
  constructor
  · intro h
    rw [splitMessage, if_pos h]
  · intro hlong hlines
    rw [splitMessage, if_neg (by omega)]
    cases hsp : splitNL message with
    | nil => exact absurd hsp (splitNL_ne_nil message)
    | cons l0 ls =>
      have h0 := hlines l0 (by rw [hsp]; exact List.mem_cons_self _ _)
      have hls : ∀ l ∈ ls, l ≠ [] ∧ l.length ≤ maxLen :=
        fun l hl => hlines l (by rw [hsp]; exact List.mem_cons_of_mem _ hl)
      rw [splitLoop_start maxLen l0 ls h0.2, splitLoop_join maxLen ls l0 h0.1 hls,
        ← hsp, joinNL_splitNL]

/-- C9 counterexample: `"abc\n\nd"` with `maxLen = 3` contains no line
longer than `maxLen` (so no hard split is forced anywhere), yet
rejoining the chunks with a newline does not reconstruct the text: the
empty line is dropped at the chunk boundary. -/
theorem splitMessage_reconstruction_cex :
    (∀ l ∈ splitNL "abc\n\nd".toList, l.length ≤ 3) ∧
    "abc\n\nd".toList.length > 3 ∧
    joinNL (splitMessage "abc\n\nd".toList 3) ≠ "abc\n\nd".toList := by
  decide

/-- C9 witness: a short text comes back as one chunk; a longer text
with nonempty short lines is reconstructed by rejoining. -/
theorem splitMessage_reconstruction_witness :
    splitMessage "short".toList 100 = ["short".toList] ∧
    joinNL (splitMessage "ab\ncd\nef".toList 3) = "ab\ncd\nef".toList :=
  ⟨(splitMessage_reconstruction "short".toList 100).1 (by decide),
   (splitMessage_reconstruction "ab\ncd\nef".toList 3).2 (by decide) (by decide)⟩

/-- C5: a record at least 30 days old at the operation time is excluded
by both `loadSentNews` and `saveSentNews`; `saveSentNews` persists
exactly the members of the union of the existing records and the new
`{url, title, sentAt := now}` records that pass the 30-day filter; and
a loaded record still within the window at commit and reload time
survives a load-commit-load round trip. -/
theorem dedupLedger_retention (file : Option (List DedupRecord))
    (news : List NewsItem) (existing : List DedupRecord) (r : DedupRecord)
    (t1 t2 t3 : ℤ) :
    (maxAgeMs ≤ t1 - r.sentAt → r ∉ (loadSentNews file t1).2) ∧
    (maxAgeMs ≤ t2 - r.sentAt → r ∉ saveSentNews news existing t2) ∧
    (r ∈ saveSentNews news existing t2 ↔
      (r ∈ existing ∨
        r ∈ news.map (fun item =>
          { url := item.url, title := item.title, sentAt := t2 : DedupRecord })) ∧
      t2 - r.sentAt < maxAgeMs) ∧
    (r ∈ (loadSentNews file t1).2 → t2 - r.sentAt < maxAgeMs →
      t3 - r.sentAt < maxAgeMs →
      r ∈ (loadSentNews
            (some (saveSentNews news (loadSentNews file t1).2 t2)) t3).2) := by
  have hsave : ∀ (ns : List NewsItem) (ex : List DedupRecord) (t : ℤ),
      r ∈ saveSentNews ns ex t ↔
        (r ∈ ex ∨ r ∈ ns.map (fun item =>
          { url := item.url, title := item.title, sentAt := t : DedupRecord })) ∧
        t - r.sentAt < maxAgeMs := by
    intro ns ex t
    rw [saveSentNews]
    simp [List.mem_filter, withinWindow, List.mem_append, or_and_right]
  have hload : ∀ (f : Option (List DedupRecord)) (t : ℤ),
      r ∈ (loadSentNews f t).2 →
        t - r.sentAt < maxAgeMs := by
    intro f t hr
    cases f with
    | none => cases hr
    | some records =>
      rw [loadSentNews] at hr
      have := (List.mem_filter.mp hr).2
      simpa [withinWindow] using this
  refine ⟨?_, ?_, hsave news existing t2, ?_⟩
  · intro hold hr
    have := hload file t1 hr
    omega
  · intro hold hr
    have := ((hsave news existing t2).mp hr).2
    omega
  · intro hr h2 h3
    have hmem : r ∈ saveSentNews news (loadSentNews file t1).2 t2 :=
      (hsave news _ t2).mpr ⟨Or.inl hr, h2⟩
    rw [loadSentNews]
    exact List.mem_filter.mpr ⟨hmem, by simpa [withinWindow] using h3⟩

/-- C5 witness: a record sent at time 0 survives load at `t1 = 1000`,
commit at `t2 = 2000` and reload at `t3 = 3000`, while a record already
31 days old at load time is dropped. -/
theorem dedupLedger_retention_witness :
    (let stale : DedupRecord := { url := "u".toList, title := "t".toList, sentAt := 0 }
     stale ∉ (loadSentNews (some [stale]) (31 * 24 * 60 * 60 * 1000)).2) ∧
    (let r : DedupRecord := { url := "u".toList, title := "t".toList, sentAt := 0 }
     r ∈ (loadSentNews (some (saveSentNews []
            (loadSentNews (some [r]) 1000).2 2000)) 3000).2) :=
  ⟨(dedupLedger_retention (some [_]) [] [] _ (31 * 24 * 60 * 60 * 1000) 0 0).1
      (by decide),
   (dedupLedger_retention (some [_]) [] [] _ 1000 2000 3000).2.2.2
      (by decide) (by decide) (by decide)⟩

/-- A JS number that is an actual (non-NaN) value within `[0, hi]`. -/
def inRange (x : JNum) (hi : ℚ) : Prop := ∃ q, x = some q ∧ 0 ≤ q ∧ q ≤ hi

/-- A field value that the validation expression turns into a number:
either falsy (replaced by the `|| 0` default) or ToNumber-convertible. -/
def coercesToNum (v : JVal) : Prop :=
  truthy v = false ∨ ∃ q, toNumber v = some q

theorem clamp_inRange (hi : ℚ) (hhi : 0 ≤ hi) (v : JVal)
    (h : coercesToNum v) :
    inRange (jsMax (some 0) (jsMin (some hi) (toNumber (jsOr v 0)))) hi := by
  have range : ∀ q : ℚ, inRange (some (max 0 (min hi q))) hi :=
    fun q => ⟨max 0 (min hi q), rfl, le_max_left _ _,
      max_le hhi (min_le_left _ _)⟩
  rcases h with hf | ⟨q, hq⟩
  · rw [jsOr, if_neg (by simp [hf])]
    simpa [toNumber, jsMin, jsMax] using range 0
  · by_cases ht : truthy v
    · rw [jsOr, if_pos ht, hq]
      simpa [jsMin, jsMax] using range q
    · rw [jsOr, if_neg ht]
      simpa [toNumber, jsMin, jsMax] using range 0

/-- C3 (amended): for every parsed oracle result, each sub-score field
that is falsy or coerces to a number yields a validated sub-score in
`[0, 25]`, and such a `totalScore` yields a value in `[0, 100]`; a
missing field is mapped to `0`; and the validated `totalScore` depends
only on the oracle-reported `totalScore` field (clamped only, never
recomputed from the sub-scores).  A truthy non-numeric field instead
propagates as NaN (see the counterexample). -/
theorem scoreImpact_clamped (r : OracleImpact) :
    (coercesToNum r.policyStrength →
      inRange (scoreImpact (.parsed r)).policyStrength 25) ∧
    (coercesToNum r.expectationGap →
      inRange (scoreImpact (.parsed r)).expectationGap 25) ∧
    (coercesToNum r.timeUrgency →
      inRange (scoreImpact (.parsed r)).timeUrgency 25) ∧
    (coercesToNum r.cryptoRelevance →
      inRange (scoreImpact (.parsed r)).cryptoRelevance 25) ∧
    (coercesToNum r.totalScore →
      inRange (scoreImpact (.parsed r)).totalScore 100) ∧
    (r.policyStrength = .absent →
      (scoreImpact (.parsed r)).policyStrength = some 0) ∧
    (∀ r' : OracleImpact, r'.totalScore = r.totalScore →
      (scoreImpact (.parsed r')).totalScore =
        (scoreImpact (.parsed r)).totalScore) := by
  refine ⟨fun h => clamp_inRange 25 (by norm_num) _ h,
    fun h => clamp_inRange 25 (by norm_num) _ h,
    fun h => clamp_inRange 25 (by norm_num) _ h,
    fun h => clamp_inRange 25 (by norm_num) _ h,
    fun h => clamp_inRange 100 (by norm_num) _ h, ?_, ?_⟩
  · intro h
    show clampSub r.policyStrength = some 0
    rw [h]
    decide
  · intro r' h
    show clampTotal r'.totalScore = clampTotal r.totalScore
    rw [h]

/-- The oracle result of the C3 counterexample: a truthy non-numeric
string in `policyStrength`. -/
def nonNumericImpact : OracleImpact :=
  { policyStrength := .str "极高".toList, expectationGap := .num 10,
    timeUrgency := .num 10, cryptoRelevance := .num 10,
    totalScore := .num 95, level := .absent, direction := .absent,
    reasoning := .absent }

/-- C3 counterexample: when the oracle reports the non-numeric string
`"极高"` for `policyStrength`, the validated value is NaN — it is not
clamped into `[0, 25]` (nor into any range). -/
theorem scoreImpact_clamped_cex :
    ¬ inRange (scoreImpact (.parsed nonNumericImpact)).policyStrength 25 := by
  have h : (scoreImpact (.parsed nonNumericImpact)).policyStrength = none := by
    decide
  rintro ⟨q, hq, -, -⟩
  rw [h] at hq
  cases hq

/-- The concrete oracle result used by the C3 witness: a missing field,
a negative number, an in-range number, a boolean and an out-of-range
total. -/
def outOfRangeImpact : OracleImpact :=
  { policyStrength := .absent, expectationGap := .num (-5),
    timeUrgency := .num 30, cryptoRelevance := .boolv true,
    totalScore := .num 120, level := .absent, direction := .absent,
    reasoning := .absent }

/-- C3 witness: the clamping theorem applied to `outOfRangeImpact`. -/
theorem scoreImpact_clamped_witness :
    inRange (scoreImpact (.parsed outOfRangeImpact)).policyStrength 25 ∧
    inRange (scoreImpact (.parsed outOfRangeImpact)).expectationGap 25 ∧
    inRange (scoreImpact (.parsed outOfRangeImpact)).timeUrgency 25 ∧
    inRange (scoreImpact (.parsed outOfRangeImpact)).cryptoRelevance 25 ∧
    inRange (scoreImpact (.parsed outOfRangeImpact)).totalScore 100 ∧
    (scoreImpact (.parsed outOfRangeImpact)).policyStrength = some 0 ∧
    (scoreImpact (.parsed { outOfRangeImpact with
        expectationGap := .num 7 })).totalScore =
      (scoreImpact (.parsed outOfRangeImpact)).totalScore := by
  have H := scoreImpact_clamped outOfRangeImpact
  exact ⟨H.1 (Or.inl rfl), H.2.1 (Or.inr ⟨-5, rfl⟩),
    H.2.2.1 (Or.inr ⟨30, rfl⟩), H.2.2.2.1 (Or.inr ⟨1, rfl⟩),
    H.2.2.2.2.1 (Or.inr ⟨120, rfl⟩), H.2.2.2.2.2.1 rfl,
    H.2.2.2.2.2.2 _ rfl⟩

theorem filter_orderedInsert {α : Type} (r : α → α → Prop) [DecidableRel r]
    (p : α → Bool) (hcompat : ∀ a b, p a = true → p b = true → r a b)
    (a : α) (l : List α) :
    (List.orderedInsert r a l).filter p =
      if p a then a :: l.filter p else l.filter p := by
  rw [List.orderedInsert_eq_take_drop, List.filter_append]
  by_cases hpa : p a
  · rw [if_pos hpa]
    have htw : (l.takeWhile (fun b => decide ¬ r a b)).filter p = [] := by
      rw [List.filter_eq_nil_iff]
      intro y hy hpy
      have hnr := List.mem_takeWhile_imp hy
      simp only [decide_not, Bool.not_eq_true', decide_eq_false_iff_not] at hnr
      exact hnr (hcompat a y hpa hpy)
    rw [htw, List.nil_append, List.filter_cons, if_pos hpa]
    conv_rhs => rw [← List.takeWhile_append_dropWhile (p := fun b => decide ¬ r a b) (l := l)]
    rw [List.filter_append, htw, List.nil_append]
  · rw [if_neg hpa, List.filter_cons, if_neg hpa]
    conv_rhs => rw [← List.takeWhile_append_dropWhile (p := fun b => decide ¬ r a b) (l := l)]
    rw [List.filter_append]

theorem filter_insertionSort {α : Type} (r : α → α → Prop) [DecidableRel r]
    (p : α → Bool) (hcompat : ∀ a b, p a = true → p b = true → r a b) :
    ∀ l : List α, (List.insertionSort r l).filter p = l.filter p := by
  intro l
  induction l with
  | nil => rfl
  | cons x l ih =>
    rw [List.insertionSort, filter_orderedInsert r p hcompat, List.filter_cons]
    by_cases hpx : p x
    · rw [if_pos hpx, if_pos hpx, ih]
    · rw [if_neg hpx, if_neg hpx, ih]

/-- The four items of the C4 example, with totals 40, 90, 40, 10. -/
def exampleItems : List NewsItem :=
  [{ title := "a".toList, description := [], url := "ua".toList },
   { title := "b".toList, description := [], url := "ub".toList },
   { title := "c".toList, description := [], url := "uc".toList },
   { title := "d".toList, description := [], url := "ud".toList }]

/-- The oracle of the C4 example: every call parses, with totals keyed
by the item title. -/
def exampleOracle (item : NewsItem) : ScoreOutcome :=
  .parsed
    { policyStrength := .num 10, expectationGap := .num 10,
      timeUrgency := .num 10, cryptoRelevance := .num 10,
      totalScore := .num (if item.title = "b".toList then 90
        else if item.title = "d".toList then 10 else 40),
      level := .absent, direction := .absent, reasoning := .absent }

/-- C4: `scoreAllNewsImpact` returns the scored items in descending
`totalScore` order; the result is a permutation of the scored input;
items of equal key keep their relative input order (the subsequence at
any fixed key is unchanged — stability); and on the example with totals
`[40, 90, 40, 10]` the output order is `[90, first 40, second 40, 10]`. -/
theorem scoreAllNewsImpact_sorted_stable (oracle : NewsItem → ScoreOutcome)
    (news : List NewsItem) (k : ℚ) :
    List.Sorted impactGE (scoreAllNewsImpact oracle news) ∧
    (scoreAllNewsImpact oracle news).Perm (news.map (attachImpact oracle)) ∧
    (scoreAllNewsImpact oracle news).filter (fun x => impactKey x = k) =
      (news.map (attachImpact oracle)).filter (fun x => impactKey x = k) ∧
    scoreAllNewsImpact exampleOracle exampleItems =
      [attachImpact exampleOracle (exampleItems.get ⟨1, by decide⟩),
       attachImpact exampleOracle (exampleItems.get ⟨0, by decide⟩),
       attachImpact exampleOracle (exampleItems.get ⟨2, by decide⟩),
       attachImpact exampleOracle (exampleItems.get ⟨3, by decide⟩)] := by
  refine ⟨List.sorted_insertionSort impactGE _,
    List.perm_insertionSort impactGE _,
    filter_insertionSort impactGE _ ?_ _, by decide⟩
  intro a b ha hb
  have ha' : impactKey a = k := by simpa using ha
  have hb' : impactKey b = k := by simpa using hb
  show impactKey b ≤ impactKey a
  rw [ha', hb']

theorem judgeRelevanceE_ok (k : Bool) (o : RelOutcome) :
    judgeRelevanceE k o = .ok (judgeRelevance k o) := by
  cases h : judgeBody k o <;> simp [judgeRelevance, judgeRelevanceE, h]

theorem processSettled_map_ok (k : Bool) (oracle : NewsItem → RelOutcome) :
    ∀ (l : List NewsItem) (batch : List NewsItem) (idx : ℕ),
    processSettled batch idx (l.map (settleItem k oracle)) =
      l.filterMap (aiStep k oracle) := by
  intro l
  induction l with
  | nil => intro batch idx; rfl
  | cons x xs ih =>
    intro batch idx
    have hx : settleItem k oracle x = .ok (x, judgeRelevance k (oracle x)) := by
      rw [settleItem, judgeRelevanceE_ok]
      rfl
    rw [List.map_cons, hx, processSettled, ih, List.filterMap_cons]
    by_cases ht : truthy (judgeRelevance k (oracle x)).relevant
    · simp [aiStep, ht]
    · simp [aiStep, ht]

theorem chunksOf5_flatMap_filterMap {α β : Type} (f : α → Option β) :
    ∀ (n : ℕ) (l : List α), l.length ≤ n →
    (chunksOf5 l).flatMap (fun b => b.filterMap f) = l.filterMap f := by
  intro n
  induction n with
  | zero =>
    intro l hl
    have : l = [] := List.eq_nil_of_length_eq_zero (by omega)
    subst this
    simp [chunksOf5]
  | succ n ih =>
    intro l hl
    cases l with
    | nil => simp [chunksOf5]
    | cons x xs =>
      rw [chunksOf5, List.flatMap_cons,
        ih (xs.drop 4) (by simp only [List.length_drop]; simp at hl; omega),
        ← List.filterMap_append]
      congr 1
      rw [List.cons_append, List.take_append_drop]

theorem filterByAI_eq_filterMap (k : Bool) (oracle : NewsItem → RelOutcome)
    (news : List NewsItem) :
    filterByAI k oracle news = news.filterMap (aiStep k oracle) := by
  rw [filterByAI]
  have h1 : ∀ batch : List NewsItem,
      processSettled batch 0 (batch.map (settleItem k oracle)) =
        batch.filterMap (aiStep k oracle) :=
    fun batch => processSettled_map_ok k oracle batch batch 0
  simp only [h1]
  exact chunksOf5_flatMap_filterMap (aiStep k oracle) news.length news le_rfl

/-- C8: on a transport/API failure `judgeRelevance` returns the
fallback verdict with score 5 and `relevant: true`; `filterByAI` is the
plain per-item filter over all items (batching never drops or aborts a
batch), so the failed item is retained, annotated with the fallback
verdict, while the other items of its batch are judged normally. -/
theorem filterByAI_fallback (oracle : NewsItem → RelOutcome)
    (news : List NewsItem) (item : NewsItem) (msg : Str) :
    judgeRelevance true (.transportError msg) = fallbackVerdict msg ∧
    (fallbackVerdict msg).score = .num 5 ∧
    (fallbackVerdict msg).relevant = .boolv true ∧
    filterByAI true oracle news = news.filterMap (aiStep true oracle) ∧
    (item ∈ news → oracle item = .transportError msg →
      annotateAI item (fallbackVerdict msg) ∈ filterByAI true oracle news) := by
  refine ⟨rfl, rfl, rfl, filterByAI_eq_filterMap true oracle news, ?_⟩
  intro hmem horacle
  rw [filterByAI_eq_filterMap]
  have hstep : aiStep true oracle item =
      some (annotateAI item (fallbackVerdict msg)) := by
    simp only [aiStep, horacle]
    rfl
  exact List.mem_filterMap.mpr ⟨item, hmem, hstep⟩

/-- A one-character item used by the batch witnesses. -/
def smallItem (c : Char) : NewsItem :=
  { title := [c], description := [], url := [c] }

/-- A 6-item feed (two batches of the 5-wide batching). -/
def batchNews : List NewsItem :=
  [smallItem 'p', smallItem 'q', smallItem 'r', smallItem 's',
   smallItem 't', smallItem 'u']

/-- An oracle that fails with a transport error on the third item and
parses a relevant verdict everywhere else. -/
def batchOracle (item : NewsItem) : RelOutcome :=
  if item.url = ['r'] then .transportError "boom".toList
  else .parsed { score := .num 7, reason := .str "ok".toList,
                 relevant := .boolv true }

/-- C8 witness: in a 6-item run where the oracle call for item `'r'`
fails, that item is retained by `filterByAI`, annotated with the
fallback verdict. -/
theorem filterByAI_fallback_witness :
    annotateAI (smallItem 'r') (fallbackVerdict "boom".toList) ∈
      filterByAI true batchOracle batchNews :=
  (filterByAI_fallback batchOracle batchNews (smallItem 'r')
    "boom".toList).2.2.2.2 (by decide) (by decide)

/-- C10 (amended): `judgeRelevance` never throws or rejects — for every
configuration and oracle behaviour the promise `judgeRelevanceE`
resolves with the verdict; every settled per-item promise of a batch is
fulfilled, so `filterByAI` equals the plain per-item filter and its
rejected-status recovery branch is unreachable.  The verdict's score is
numeric whenever the parsed `score` field is numeric or falsy, and its
`relevant` flag is boolean whenever the parsed `relevant` field is
boolean or missing; truthy fields of other types are passed through raw
(see the counterexample). -/
theorem judgeRelevance_never_rejects (k : Bool) (o : RelOutcome)
    (oracle : NewsItem → RelOutcome) (news : List NewsItem) (r : RelResult) :
    judgeRelevanceE k o = .ok (judgeRelevance k o) ∧
    (news.map (settleItem k oracle)).all isFulfilled = true ∧
    filterByAI k oracle news = news.filterMap (aiStep k oracle) ∧
    ((∃ q, r.score = .num q) ∨ truthy r.score = false →
      ∃ q, (judgeRelevance k (.parsed r)).score = .num q) ∧
    (r.relevant = .absent ∨ (∃ b, r.relevant = .boolv b) →
      ∃ b, (judgeRelevance k (.parsed r)).relevant = .boolv b) := by
  refine ⟨judgeRelevanceE_ok k o, ?_, filterByAI_eq_filterMap k oracle news,
    ?_, ?_⟩
  · rw [List.all_eq_true]
    intro x hx
    rcases List.mem_map.mp hx with ⟨item, -, rfl⟩
    rw [settleItem, judgeRelevanceE_ok]
    rfl
  · intro h
    cases k with
    | false => exact ⟨5, rfl⟩
    | true =>
      show ∃ q, (coerceVerdict r).score = .num q
      rcases h with ⟨q, hq⟩ | hf
      · rw [coerceVerdict]
        by_cases ht : truthy r.score
        · refine ⟨q, ?_⟩
          have ht' : truthy (JVal.num q) = true := by rw [← hq]; exact ht
          simp only [jsOr, hq, if_pos ht']
        · exact ⟨0, by simp only [jsOr, if_neg ht]⟩
      · exact ⟨0, by simp only [coerceVerdict, jsOr, hf, Bool.false_eq_true,
          if_false]⟩
  · intro h
    cases k with
    | false => exact ⟨true, rfl⟩
    | true =>
      show ∃ b, (coerceVerdict r).relevant = .boolv b
      rcases h with ha | ⟨b, hb⟩
      · exact ⟨jsGEnum r.score 6, by simp only [coerceVerdict, if_pos ha]⟩
      · exact ⟨b, by simp only [coerceVerdict, hb]; rw [if_neg (by simp)]⟩

/-- The parsed result of the C10 counterexample: truthy non-numeric
`score` and non-boolean `relevant`. -/
def rawRelResult : RelResult :=
  { score := .str "high".toList, reason := .absent,
    relevant := .str "yes".toList }

/-- C10 counterexample: on the JSON `{"score": "high", "relevant":
"yes"}` the verdict's score is not numeric and its relevant flag is not
boolean — the raw field values pass through `|| 0` and the
`!== undefined` test untouched. -/
theorem judgeRelevance_raw_fields_cex :
    (¬ ∃ q, (judgeRelevance true (.parsed rawRelResult)).score = .num q) ∧
    (¬ ∃ b, (judgeRelevance true (.parsed rawRelResult)).relevant = .boolv b) := by
  have hs : (judgeRelevance true (.parsed rawRelResult)).score =
      .str "high".toList := by decide
  have hr : (judgeRelevance true (.parsed rawRelResult)).relevant =
      .str "yes".toList := by decide
  constructor
  · rintro ⟨q, hq⟩
    rw [hs] at hq
    cases hq
  · rintro ⟨b, hb⟩
    rw [hr] at hb
    cases hb

/-- The well-formed parsed result of the C10 witness. -/
def numRelResult : RelResult :=
  { score := .num 7, reason := .absent, relevant := .absent }

/-- C10 witness: the totality theorem applied to a parse failure, a
one-item batch and a numeric parsed result. -/
theorem judgeRelevance_never_rejects_witness :
    judgeRelevanceE true (.parseFailure none) =
      .ok (judgeRelevance true (.parseFailure none)) ∧
    ([smallItem 'w'].map
      (settleItem true (fun _ => .parsed numRelResult))).all isFulfilled = true ∧
    filterByAI true (fun _ => .parsed numRelResult) [smallItem 'w'] =
      [smallItem 'w'].filterMap (aiStep true (fun _ => .parsed numRelResult)) ∧
    (∃ q, (judgeRelevance true (.parsed numRelResult)).score = .num q) ∧
    (∃ b, (judgeRelevance true (.parsed numRelResult)).relevant = .boolv b) := by
  have H := judgeRelevance_never_rejects true (.parseFailure none)
    (fun _ => .parsed numRelResult) [smallItem 'w'] numRelResult
  exact ⟨H.1, H.2.1, H.2.2.1, H.2.2.2.1 (Or.inl ⟨7, rfl⟩),
    H.2.2.2.2 (Or.inl rfl)⟩

/-- First item of the C1 run; its summary's delivery fails. -/
def failingItemA : NewsItem :=
  { title := "A".toList, description := [], url := "uA".toList }

/-- Second item of the C1 run; its summary's delivery succeeds. -/
def failingItemB : NewsItem :=
  { title := "B".toList, description := [], url := "uB".toList }

/-- A 4000-character summary (forces the separate-send branch: combined
with the second summary and the divider it exceeds 4096). -/
def longSummaryA : Str := List.replicate 4000 'a'

/-- A 200-character summary. -/
def shortSummaryB : Str := List.replicate 200 'b'

/-- A delivery collaborator for which every message over 3000
characters keeps failing after all retries: the first summary's
(header-prefixed, 4014-character) message fails, the second
(214-character) succeeds. -/
def flakyOk (m : Str) : Bool := decide (m.length ≤ 3000)

/-- C1 (code bug): with two summaries too long to combine, delivery of
the first fails even after retries while the second succeeds, yet
`main` commits the ledger with BOTH items — the record of the item
whose delivery failed is persisted, so it will never be retried. -/
theorem commit_records_failed_delivery :
    sendSummaryOk flakyOk 0 2 longSummaryA = false ∧
    sendSummaryOk flakyOk 1 2 shortSummaryB = true ∧
    mainCommitAfterSend flakyOk [failingItemA, failingItemB]
      [longSummaryA, shortSummaryB] [] 0 =
      some [{ url := "uA".toList, title := "A".toList, sentAt := 0 },
            { url := "uB".toList, title := "B".toList, sentAt := 0 }] ∧
    { url := "uA".toList, title := "A".toList, sentAt := 0 : DedupRecord } ∈
      (mainCommitAfterSend flakyOk [failingItemA, failingItemB]
        [longSummaryA, shortSummaryB] [] 0).getD [] := by
  have hA : longSummaryA.length = 4000 := by
    simp only [longSummaryA, List.length_replicate]
  have hB : shortSummaryB.length = 200 := by
    simp only [shortSummaryB, List.length_replicate]
  have hH1 : (sendHeader 1 2).length = 14 := by decide
  have hH2 : (sendHeader 2 2).length = 14 := by decide
  have hsep : summarySeparator.length = 34 := by decide
  have hmsgA : (sendHeader 1 2 ++ longSummaryA).length = 4014 := by
    rw [List.length_append, hH1, hA]
  have hmsgB : (sendHeader 2 2 ++ shortSummaryB).length = 214 := by
    rw [List.length_append, hH2, hB]
  have hsplitA : splitMessage (sendHeader 1 2 ++ longSummaryA) TG_MAX =
      [sendHeader 1 2 ++ longSummaryA] := by
    rw [splitMessage, if_pos (by rw [hmsgA]; norm_num [TG_MAX])]
  have hsplitB : splitMessage (sendHeader 2 2 ++ shortSummaryB) TG_MAX =
      [sendHeader 2 2 ++ shortSummaryB] := by
    rw [splitMessage, if_pos (by rw [hmsgB]; norm_num [TG_MAX])]
  have hokA : flakyOk (sendHeader 1 2 ++ longSummaryA) = false := by
    simp [flakyOk, hmsgA]
  have hokB : flakyOk (sendHeader 2 2 ++ shortSummaryB) = true := by
    simp [flakyOk, hmsgB]
  have h1 : sendSummaryOk flakyOk 0 2 longSummaryA = false := by
    rw [sendSummaryOk, hsplitA, sendChunks, hokA]
    rfl
  have h2 : sendSummaryOk flakyOk 1 2 shortSummaryB = true := by
    rw [sendSummaryOk, hsplitB, sendChunks, hokB]
    rfl
  have hcomb : (joinWithSeparator [longSummaryA, shortSummaryB]).length = 4234 := by
    show (longSummaryA ++ summarySeparator ++ shortSummaryB).length = 4234
    simp [List.length_append, hA, hB, hsep]
  have hsend : sendNewsSummaries flakyOk [longSummaryA, shortSummaryB] = .ok 1 := by
    rw [sendNewsSummaries]
    rw [if_neg (by rw [hcomb]; norm_num [TG_MAX])]
    simp [List.enum, List.countP, List.countP.go, h1, h2]
  have hmain : mainCommitAfterSend flakyOk [failingItemA, failingItemB]
      [longSummaryA, shortSummaryB] [] 0 =
      some [{ url := "uA".toList, title := "A".toList, sentAt := 0 },
            { url := "uB".toList, title := "B".toList, sentAt := 0 }] := by
    rw [mainCommitAfterSend, hsend]
    simp [saveSentNews, withinWindow, maxAgeMs, failingItemA, failingItemB]
  refine ⟨h1, h2, hmain, ?_⟩
  rw [hmain]
  decide

end CryptoNews
